import Mathlib

/-
Verification of the Test-Case-Generator repository's orchestration core.

The TypeScript sources are shallowly embedded below: pure functions become Lean
functions; network calls (GitHub API, Gemini API) become oracle parameters that
yield either a failure or a reply; the millisecond clock (Date.now) becomes an
explicit parameter; React component state becomes an explicit state record with
a step function over UI events.  Host library routines the code leans on
(JSON.parse on the fragment the code consumes, the Date ISO codec, regex
replaces that are plain pattern scans) are implemented concretely and noted at
their definitions.
-/

/-! ## Basic character/string utilities -/

/-- Tests whether the second list starts with the first (pattern, input). -/
def startsWithList : List Char → List Char → Bool
  | [], _ => true
  | _ :: _, [] => false
  | p :: ps, c :: cs => p = c && startsWithList ps cs

/-- The decimal digit character for a value below ten (JS number-to-string digits). -/
def decDigitChar (n : Nat) : Char := Char.ofNat (48 + n)

/-- The numeric value of a decimal digit character. -/
def decDigitVal (c : Char) : Nat := c.toNat - 48

/-- Decimal rendering of a natural number, with explicit fuel; models the JS
template interpolation of a number such as Date.now(). -/
def natDecAux : Nat → Nat → List Char
  | 0, _ => []
  | fuel + 1, n =>
    if n < 10 then [decDigitChar n]
    else natDecAux fuel (n / 10) ++ [decDigitChar (n % 10)]

/-- Decimal digit characters of a natural number. -/
def natDecChars (n : Nat) : List Char := natDecAux (n + 1) n

/-- Decimal string of a natural number, as JS template interpolation renders it. -/
def natDec (n : Nat) : String := String.mk (natDecChars n)

/-- Value of a list of decimal digit characters, most significant first. -/
def decDigitsVal (ds : List Char) : Nat := ds.foldl (fun a c => a * 10 + decDigitVal c) 0

/-- Reads the leading nonempty run of decimal digits off a character list. -/
def takeDecRun (cs : List Char) : Option (Nat × List Char) :=
  let run := cs.takeWhile Char.isDigit
  if run.isEmpty then none else some (decDigitsVal run, cs.drop run.length)

/-- Counts (possibly overlapping) occurrences of a nonempty pattern, with fuel. -/
def countOccurAux (pat : List Char) : Nat → List Char → Nat
  | 0, _ => 0
  | _ + 1, [] => 0
  | fuel + 1, c :: cs =>
    (if startsWithList pat (c :: cs) then 1 else 0) + countOccurAux pat fuel cs

/-- Counts occurrences of a pattern string inside a string. -/
def countOccur (pat s : String) : Nat := countOccurAux pat.toList (s.toList.length + 1) s.toList

/-- Substring test built on occurrence counting. -/
def containsStr (s pat : String) : Bool := decide (0 < countOccur pat s)

/-- JS whitespace for trim (the ASCII part; the exotic unicode spaces never
arise in the texts the claims touch). -/
def jsTrimWs (c : Char) : Bool :=
  c = ' ' || c = '\t' || c = '\n' || c = '\r' || c = Char.ofNat 11 || c = Char.ofNat 12

/-- The JS String.prototype.trim, dropping whitespace from both ends. -/
def jsTrim (s : String) : String :=
  String.mk (((s.toList.dropWhile jsTrimWs).reverse.dropWhile jsTrimWs).reverse)

/-- The JS String.prototype.split with a one-character separator. -/
def splitOnCharAux (sep : Char) : List Char → List Char → List (List Char)
  | [], acc => [acc.reverse]
  | c :: cs, acc =>
    if c = sep then acc.reverse :: splitOnCharAux sep cs []
    else splitOnCharAux sep cs (c :: acc)

/-- Splitting a string at every occurrence of a character. -/
def splitOnChar (sep : Char) (s : String) : List String :=
  (splitOnCharAux sep s.toList []).map String.mk

/-- ASCII lowercasing of one character (the toLowerCase the classifiers apply;
the inputs are file extensions). -/
def asciiLowerChar (c : Char) : Char :=
  if 'A' ≤ c && c ≤ 'Z' then Char.ofNat (c.toNat + 32) else c

/-- ASCII lowercasing of a string. -/
def asciiToLower (s : String) : String := String.mk (s.toList.map asciiLowerChar)

/-- Suffix test on character lists. -/
def endsWithChars (s suffix : List Char) : Bool := startsWithList suffix.reverse s.reverse

/-- The JS String.prototype.endsWith. -/
def jsEndsWith (s suffix : String) : Bool := endsWithChars s.toList suffix.toList

/-! ## A model of the host JSON.parse

The repository calls the host JSON.parse on the array literal it cuts out of
the AI reply.  The grammar implemented here is JSON values: null, booleans,
numbers (sign, integer part, optional fraction and exponent, read into Rat),
strings with the standard escapes (\u without surrogate pairing), arrays and
objects.  Recursion is by fuel, always sufficient since every step consumes
input. -/

inductive JValue where
  | null
  | bool (b : Bool)
  | num (q : Rat)
  | str (s : String)
  | arr (items : List JValue)
  | obj (fields : List (String × JValue))

/-- Skips JSON whitespace. -/
def skipWs (cs : List Char) : List Char :=
  cs.dropWhile (fun c => c = ' ' || c = '\n' || c = '\t' || c = '\r')

/-- Maps a single-character escape code to its character. -/
def escChar (c : Char) : Option Char :=
  if c = '"' then some '"'
  else if c = '\\' then some '\\'
  else if c = '/' then some '/'
  else if c = 'n' then some '\n'
  else if c = 't' then some '\t'
  else if c = 'r' then some '\r'
  else if c = 'b' then some (Char.ofNat 8)
  else if c = 'f' then some (Char.ofNat 12)
  else none

/-- Hexadecimal digit value. -/
def hexVal (c : Char) : Option Nat :=
  if c.isDigit then some (c.toNat - 48)
  else if 'a' ≤ c && c ≤ 'f' then some (c.toNat - 87)
  else if 'A' ≤ c && c ≤ 'F' then some (c.toNat - 55)
  else none

/-- Parses the body of a JSON string after the opening quote; returns the
content and the remainder after the closing quote. -/
def parseJStrAux : Nat → List Char → Option (List Char × List Char)
  | 0, _ => none
  | _ + 1, [] => none
  | fuel + 1, c :: cs =>
    if c = '"' then some ([], cs)
    else if c = '\\' then
      match cs with
      | [] => none
      | 'u' :: h1 :: h2 :: h3 :: h4 :: cs3 => do
        let v1 ← hexVal h1
        let v2 ← hexVal h2
        let v3 ← hexVal h3
        let v4 ← hexVal h4
        let (content, rest) ← parseJStrAux fuel cs3
        some (Char.ofNat (((v1 * 16 + v2) * 16 + v3) * 16 + v4) :: content, rest)
      | e :: cs2 => do
        let ec ← escChar e
        let (content, rest) ← parseJStrAux fuel cs2
        some (ec :: content, rest)
    else do
      let (content, rest) ← parseJStrAux fuel cs
      some (c :: content, rest)

/-- Builds a rational from a parsed JSON number's parts. -/
def ratOfParts (neg : Bool) (intPart : Nat) (fracDigits : List Char) (expNeg : Bool)
    (expVal : Nat) : Rat :=
  let base : Rat := (intPart : Rat) + (decDigitsVal fracDigits : Rat) / (10 : Rat) ^ fracDigits.length
  let scaled : Rat := if expNeg then base / (10 : Rat) ^ expVal else base * (10 : Rat) ^ expVal
  if neg then -scaled else scaled

/-- Parses a JSON number (digit runs are accepted without the leading-zero restriction). -/
def parseJNum (cs : List Char) : Option (Rat × List Char) :=
  let (neg, cs) := match cs with
    | '-' :: rest => (true, rest)
    | _ => (false, cs)
  match takeDecRun cs with
  | none => none
  | some (intPart, cs) =>
    let (fracDigits, cs) := match cs with
      | '.' :: rest =>
        let run := rest.takeWhile Char.isDigit
        (run, rest.drop run.length)
      | _ => ([], cs)
    let (hasExp, expNeg, cs) := match cs with
      | 'e' :: '-' :: rest => (true, true, rest)
      | 'e' :: '+' :: rest => (true, false, rest)
      | 'e' :: rest => (true, false, rest)
      | 'E' :: '-' :: rest => (true, true, rest)
      | 'E' :: '+' :: rest => (true, false, rest)
      | 'E' :: rest => (true, false, rest)
      | _ => (false, false, cs)
    if hasExp then
      match takeDecRun cs with
      | none => none
      | some (expVal, cs) => some (ratOfParts neg intPart fracDigits expNeg expVal, cs)
    else
      some (ratOfParts neg intPart fracDigits false 0, cs)

mutual

/-- Parses one JSON value; leading whitespace is skipped by the caller. -/
def parseJValue : Nat → List Char → Option (JValue × List Char)
  | 0, _ => none
  | fuel + 1, cs =>
    match cs with
    | '[' :: rest => parseJArr fuel (skipWs rest)
    | '{' :: rest => parseJObj fuel (skipWs rest)
    | '"' :: rest => do
      let (content, r) ← parseJStrAux (rest.length + 1) rest
      some (JValue.str (String.mk content), r)
    | 't' :: 'r' :: 'u' :: 'e' :: rest => some (JValue.bool true, rest)
    | 'f' :: 'a' :: 'l' :: 's' :: 'e' :: rest => some (JValue.bool false, rest)
    | 'n' :: 'u' :: 'l' :: 'l' :: rest => some (JValue.null, rest)
    | _ => do
      let (q, r) ← parseJNum cs
      some (JValue.num q, r)

/-- Parses an array body after the opening bracket and whitespace. -/
def parseJArr : Nat → List Char → Option (JValue × List Char)
  | 0, _ => none
  | fuel + 1, cs =>
    match cs with
    | ']' :: rest => some (JValue.arr [], rest)
    | _ => do
      let (v, r) ← parseJValue fuel cs
      let (items, r2) ← parseJArrTail fuel (skipWs r)
      some (JValue.arr (v :: items), r2)

/-- Parses the remainder of an array after one element. -/
def parseJArrTail : Nat → List Char → Option (List JValue × List Char)
  | 0, _ => none
  | fuel + 1, cs =>
    match cs with
    | ']' :: rest => some ([], rest)
    | ',' :: rest => do
      let (v, r) ← parseJValue fuel (skipWs rest)
      let (items, r2) ← parseJArrTail fuel (skipWs r)
      some (v :: items, r2)
    | _ => none

/-- Parses an object body after the opening brace and whitespace. -/
def parseJObj : Nat → List Char → Option (JValue × List Char)
  | 0, _ => none
  | fuel + 1, cs =>
    match cs with
    | '}' :: rest => some (JValue.obj [], rest)
    | _ => do
      let (kv, r) ← parseJObjPair fuel cs
      let (fields, r2) ← parseJObjTail fuel (skipWs r)
      some (JValue.obj (kv :: fields), r2)

/-- Parses one key-value pair of an object. -/
def parseJObjPair : Nat → List Char → Option ((String × JValue) × List Char)
  | 0, _ => none
  | fuel + 1, cs =>
    match cs with
    | '"' :: rest => do
      let (key, r) ← parseJStrAux (rest.length + 1) rest
      match skipWs r with
      | ':' :: r2 => do
        let (v, r3) ← parseJValue fuel (skipWs r2)
        some ((String.mk key, v), r3)
      | _ => none
    | _ => none

/-- Parses the remainder of an object after one pair. -/
def parseJObjTail : Nat → List Char → Option (List (String × JValue) × List Char)
  | 0, _ => none
  | fuel + 1, cs =>
    match cs with
    | '}' :: rest => some ([], rest)
    | ',' :: rest => do
      let (kv, r) ← parseJObjPair fuel (skipWs rest)
      let (fields, r2) ← parseJObjTail fuel (skipWs r)
      some (kv :: fields, r2)
    | _ => none

end

/-- Models the host JSON.parse: parses one value and requires only whitespace after it. -/
def jsonParse (s : String) : Option JValue :=
  match parseJValue (s.length + 1) (skipWs s.toList) with
  | some (v, rest) => if (skipWs rest).isEmpty then some v else none
  | none => none

/-! ## Data model (src/lib/ai-service.ts interfaces) -/

/-- One selected file's path and fetched text (SelectedFileContent). -/
structure SelectedFileContent where
  path : String
  content : String
deriving DecidableEq

/-- The TestCaseSummary interface.  estimatedComplexity is a JS number, read
into Rat; functionName is optional. -/
structure TestCaseSummary where
  id : String
  title : String
  description : String
  testType : String
  priority : String
  estimatedComplexity : Rat
  functionName : Option String
  filePath : String
deriving DecidableEq

/-- The GeneratedTestCode interface. -/
structure GeneratedTestCode where
  id : String
  summaryId : String
  code : String
  framework : String
  language : String
deriving DecidableEq

/-- Outcome of one AI network call: the fetch/response-shape failure path, or
the reply text extracted from the first candidate. -/
inductive AIOutcome where
  | failure
  | reply (text : String)

/-! ## Phase 1: generateTestSummariesAction (src/lib/ai-actions.ts)

The action requires GEMINI_API_KEY and throws before processing any file when
it is absent; the model below covers the runs in which the key is present, the
only runs that return a list at all.  Date.now() is modelled by a clock
parameter giving the millisecond timestamp observed while processing file i. -/

/-- JS truthiness of a JSON value (null, false, 0 and the empty string are falsy). -/
def jTruthy : JValue → Bool
  | JValue.null => false
  | JValue.bool b => b
  | JValue.num q => decide (q ≠ 0)
  | JValue.str s => decide (s ≠ "")
  | JValue.arr _ => true
  | JValue.obj _ => true

/-- Field lookup on a parsed JSON object; JSON.parse keeps the last duplicate key. -/
def jGetField : JValue → String → Option JValue
  | JValue.obj fields, k => fields.reverse.lookup k
  | _, _ => none

/-- String rendering of a JSON value where a non-string leaks into a
string-typed field (the TS interface types these fields string; the JS decimal
formatting of numbers is approximated and unused by any claim). -/
def jRenderString : JValue → String
  | JValue.str s => s
  | JValue.num q => if q.den = 1 then toString q.num else toString q.num ++ "/" ++ toString q.den
  | JValue.bool true => "true"
  | JValue.bool false => "false"
  | JValue.null => "null"
  | JValue.arr _ => "[array]"
  | JValue.obj _ => "[object Object]"

/-- The JS pattern item.field or-else default for string-typed fields. -/
def jFieldStrOr (item : JValue) (key dflt : String) : String :=
  match jGetField item key with
  | some v => if jTruthy v then jRenderString v else dflt
  | none => dflt

/-- The JS pattern item.field or-else default for the number-typed complexity
field (a truthy non-number value is outside the TS type and modelled by the
default). -/
def jFieldNumOr (item : JValue) (key : String) (dflt : Rat) : Rat :=
  match jGetField item key with
  | some (JValue.num q) => if q ≠ 0 then q else dflt
  | _ => dflt

/-- Reading of item.functionName: absent or null becomes the absent optional. -/
def jFieldFunctionName (item : JValue) : Option String :=
  match jGetField item "functionName" with
  | none => none
  | some JValue.null => none
  | some v => some (jRenderString v)

/-- The id template gemini-(Date.now())-(index). -/
def mkGeminiId (now index : Nat) : String :=
  "gemini-" ++ natDec now ++ "-" ++ natDec index

/-- The id template fallback-(Date.now()). -/
def mkFallbackId (now : Nat) : String := "fallback-" ++ natDec now

/-- The last slash-separated component: file.path.split("/").pop(). -/
def lastPathComponent (path : String) : String := (splitOnChar '/' path).getLastD ""

/-- createFallbackSummary (src/lib/ai-actions.ts lines 220-230). -/
def createFallbackSummary (path : String) (now : Nat) : TestCaseSummary :=
  { id := mkFallbackId now
    title := "Basic tests for " ++ lastPathComponent path
    description := "Basic test coverage for this file"
    testType := "unit"
    priority := "medium"
    estimatedComplexity := 3
    functionName := none
    filePath := path }

/-- One element of the parsed.map in parseAIResponse: the summary built from
the JSON item at the given index. -/
def summaryOfItem (filePath : String) (now index : Nat) (item : JValue) : TestCaseSummary :=
  { id := mkGeminiId now index
    title := jFieldStrOr item "title" "Generated Test"
    description := jFieldStrOr item "description" "AI generated test case"
    testType := jFieldStrOr item "testType" "unit"
    priority := jFieldStrOr item "priority" "medium"
    estimatedComplexity := jFieldNumOr item "estimatedComplexity" 3
    functionName := jFieldFunctionName item
    filePath := filePath }

/-- The parsed.map over the array items with their indices. -/
def summariesOfItems (filePath : String) (now : Nat) : Nat → List JValue → List TestCaseSummary
  | _, [] => []
  | index, item :: rest =>
    summaryOfItem filePath now index item :: summariesOfItems filePath now (index + 1) rest

/-- Removal of every occurrence of a fence pattern followed by an optional
newline: the JS global replace of the regex pattern-then-optional-newline with
the empty string.  Fuel is the input length. -/
def removeFenceAux (pat : List Char) : Nat → List Char → List Char
  | 0, cs => cs
  | _ + 1, [] => []
  | fuel + 1, c :: rest =>
    if startsWithList pat (c :: rest) then
      match (c :: rest).drop pat.length with
      | '\n' :: rest2 => removeFenceAux pat fuel rest2
      | after => removeFenceAux pat fuel after
    else c :: removeFenceAux pat fuel rest

/-- Global replace of a fence pattern with optional trailing newline. -/
def removeFence (pat : String) (s : String) : String :=
  String.mk (removeFenceAux pat.toList (s.toList.length + 1) s.toList)

/-- The first-bracket-to-last-bracket cut: the JS match of an opening square
bracket, any characters, then a closing square bracket (greedy), returning the
whole match. -/
def matchArrayLiteral (s : String) : Option String :=
  let cs := s.toList
  match cs.findIdx? (· = '['), (cs.reverse.findIdx? (· = ']')) with
  | some i, some rj =>
    let j := cs.length - 1 - rj
    if i < j then some (String.mk ((cs.drop i).take (j - i + 1))) else none
  | _, _ => none

/-- parseAIResponse (src/lib/ai-actions.ts lines 191-218): strip fences, cut
out the array literal, JSON.parse it and map the items; any failure on the way
degrades to the single fallback summary. -/
def parseAIResponse (response filePath : String) (now : Nat) : List TestCaseSummary :=
  let cleanResponse := removeFence "```" (removeFence "```json" (jsTrim response))
  match matchArrayLiteral cleanResponse with
  | none => [createFallbackSummary filePath now]
  | some jsonText =>
    match jsonParse jsonText with
    | some (JValue.arr items) => summariesOfItems filePath now 0 items
    | _ => [createFallbackSummary filePath now]

/-- The per-file body of the generateTestSummariesAction loop: a failed call
degrades to the fallback summary, a reply goes through parseAIResponse. -/
def summariesForFile (outcome : Nat → AIOutcome) (clock : Nat → Nat) (i : Nat)
    (f : SelectedFileContent) : List TestCaseSummary :=
  match outcome i with
  | AIOutcome.failure => [createFallbackSummary f.path (clock i)]
  | AIOutcome.reply text => parseAIResponse text f.path (clock i)

/-- The sequential for-loop of generateTestSummariesAction, pushing each
file's summaries in order. -/
def genSummariesFrom (outcome : Nat → AIOutcome) (clock : Nat → Nat) :
    Nat → List SelectedFileContent → List TestCaseSummary
  | _, [] => []
  | i, f :: rest =>
    summariesForFile outcome clock i f ++ genSummariesFrom outcome clock (i + 1) rest

/-- generateTestSummariesAction (src/lib/ai-actions.ts lines 6-101). -/
def generateTestSummariesAction (files : List SelectedFileContent)
    (outcome : Nat → AIOutcome) (clock : Nat → Nat) : List TestCaseSummary :=
  genSummariesFrom outcome clock 0 files

/-! ## Phase 2: generateTestCodeAction (src/lib/ai-actions.ts lines 104-188)
and the selection loop (src/components/test-generation.tsx lines 57-76) -/

/-- JS word character, the character class matched inside a fence marker. -/
def isWordChar (c : Char) : Bool := c.isAlphanum || c = '_'

/-- Global replace of triple-backtick fence markers with optional language tag
and optional trailing newline: the cleanup applied to the raw phase-2 reply. -/
def stripFencesAux : Nat → List Char → List Char
  | 0, cs => cs
  | _ + 1, [] => []
  | fuel + 1, c :: cs =>
    if startsWithList ("```".toList) (c :: cs) then
      match ((c :: cs).drop 3).dropWhile isWordChar with
      | '\n' :: rest2 => stripFencesAux fuel rest2
      | after => stripFencesAux fuel after
    else c :: stripFencesAux fuel cs

/-- Fence cleanup on strings. -/
def stripFences (s : String) : String :=
  String.mk (stripFencesAux (s.toList.length + 1) s.toList)

/-- The isTypeScript test used by both phase-2 generators. -/
def isTypeScriptPath (filePath : String) : Bool :=
  jsEndsWith filePath ".ts" || jsEndsWith filePath ".tsx"

/-- Removal of the last n characters of a string. -/
def dropLastChars (s : String) (n : Nat) : String :=
  String.mk (s.toList.take (s.toList.length - n))

/-- Strips a code extension off a path: the anchored replace of a dot followed
by ts, tsx, js or jsx at the end of the string. -/
def stripCodeExt (filePath : String) : String :=
  if jsEndsWith filePath ".tsx" then dropLastChars filePath 4
  else if jsEndsWith filePath ".jsx" then dropLastChars filePath 4
  else if jsEndsWith filePath ".ts" then dropLastChars filePath 3
  else if jsEndsWith filePath ".js" then dropLastChars filePath 3
  else filePath

/-- The JS pattern optional-value or-else default, where an empty string is falsy. -/
def strOrDefault (v : Option String) (dflt : String) : String :=
  match v with
  | some s => if s = "" then dflt else s
  | none => dflt

/-- createFallbackTestCode (src/lib/ai-actions.ts lines 232-252). -/
def createFallbackTestCode (summary : TestCaseSummary) : GeneratedTestCode :=
  let isTypeScript := isTypeScriptPath summary.filePath
  let importPath := stripCodeExt summary.filePath
  let basicTestCode :=
    "import \x7b " ++ strOrDefault summary.functionName "testFunction" ++ " \x7d from '"
      ++ importPath ++ "';\n\ndescribe('" ++ summary.title
      ++ "', () => \x7b\n  test('should work correctly', () => \x7b\n    // Basic test implementation\n    expect(true).toBe(true);\n  \x7d);\n\x7d);"
  { id := "test-" ++ summary.id
    summaryId := summary.id
    code := basicTestCode
    framework := "jest"
    language := if isTypeScript then "typescript" else "javascript" }

/-- generateTestCodeAction (src/lib/ai-actions.ts lines 104-188): a reply is
fence-stripped and trimmed into the code field; any failure of the call is
caught and degrades to createFallbackTestCode.  The missing-key throw happens
before the try block, as in phase 1. -/
def generateTestCodeAction (summary : TestCaseSummary) (outcome : AIOutcome) : GeneratedTestCode :=
  match outcome with
  | AIOutcome.failure => createFallbackTestCode summary
  | AIOutcome.reply text =>
    let isTypeScript := isTypeScriptPath summary.filePath
    { id := "test-" ++ summary.id
      summaryId := summary.id
      code := jsTrim (stripFences text)
      framework := "jest"
      language := if isTypeScript then "typescript" else "javascript" }

/-- The sequential per-summary loop of generateTestCode
(src/components/test-generation.tsx lines 57-76), pushing one record per
selected summary in order; the action never rejects, so no push is skipped. -/
def genCodeFrom (outcome : Nat → AIOutcome) : Nat → List TestCaseSummary → List GeneratedTestCode
  | _, [] => []
  | i, s :: rest => generateTestCodeAction s (outcome i) :: genCodeFrom outcome (i + 1) rest

/-- Phase-2 code generation over the selected summaries. -/
def generateTestCode (selected : List TestCaseSummary) (outcome : Nat → AIOutcome) :
    List GeneratedTestCode :=
  genCodeFrom outcome 0 selected

/-! ## File classification (src/lib/github-api.ts lines 166-208) -/

/-- The extension-to-language map of getFileLanguage. -/
def languageMap : List (String × String) :=
  [("js", "JavaScript"), ("jsx", "React"), ("ts", "TypeScript"), ("tsx", "React"),
   ("py", "Python"), ("java", "Java"), ("cpp", "C++"), ("c", "C"), ("cs", "C#"),
   ("php", "PHP"), ("rb", "Ruby"), ("go", "Go"), ("rs", "Rust"), ("kt", "Kotlin"),
   ("swift", "Swift")]

/-- The extension extraction filename.split(".").pop()?.toLowerCase() shared by
both classifiers; a dotless name yields the whole name. -/
def fileExt (filename : String) : String := asciiToLower ((splitOnChar '.' filename).getLastD "")

/-- getFileLanguage (src/lib/github-api.ts lines 166-186). -/
def getFileLanguage (filename : String) : String :=
  (languageMap.lookup (fileExt filename)).getD "Unknown"

/-- The testable-extension allow-list of isTestableFile. -/
def testableExtensions : List String :=
  ["js", "jsx", "ts", "tsx", "py", "java", "cpp", "c", "cs", "php", "rb", "go", "rs",
   "kt", "swift"]

/-- isTestableFile (src/lib/github-api.ts lines 188-208). -/
def isTestableFile (filename : String) : Bool :=
  testableExtensions.contains (fileExt filename)

/-! ## Tree Builder (src/app/page.tsx lines 77-111)

The remote snapshot is a tree: a directory entry carries the result of the
listing call on its path, where the absent listing models that call failing
(the catch branch of buildFileTree). -/

inductive RemoteEntry where
  | file (name path : String)
  | dir (name path : String) (listing : Option (List RemoteEntry))

/-- The FileItem interface of page.tsx: a file with its detected language, or
a directory with ordered children. -/
inductive FileItem where
  | file (name path language : String)
  | directory (name path : String) (children : List FileItem)

/-- buildFileTree (src/app/page.tsx lines 77-111): directories recurse into
their listing, a failed listing is recorded with empty children, files are kept
only when testable and carry their detected language. -/
def buildFileTree : List RemoteEntry → List FileItem
  | [] => []
  | RemoteEntry.dir name path none :: rest =>
    FileItem.directory name path [] :: buildFileTree rest
  | RemoteEntry.dir name path (some listing) :: rest =>
    FileItem.directory name path (buildFileTree listing) :: buildFileTree rest
  | RemoteEntry.file name path :: rest =>
    if isTestableFile name then
      FileItem.file name path (getFileLanguage name) :: buildFileTree rest
    else buildFileTree rest

/-- All file nodes of a built catalog, with name, path and language, at every depth. -/
def catalogFiles : List FileItem → List (String × String × String)
  | [] => []
  | FileItem.file name path language :: rest => (name, path, language) :: catalogFiles rest
  | FileItem.directory _ _ children :: rest => catalogFiles children ++ catalogFiles rest

/-- All file entries of the remote snapshot reachable through successful
listings, with name and path, at every depth. -/
def remoteFiles : List RemoteEntry → List (String × String)
  | [] => []
  | RemoteEntry.file name path :: rest => (name, path) :: remoteFiles rest
  | RemoteEntry.dir _ _ none :: rest => remoteFiles rest
  | RemoteEntry.dir _ _ (some listing) :: rest => remoteFiles listing ++ remoteFiles rest

/-! ## Workflow state machine (src/app/page.tsx, src/components/test-generation.tsx)

The page-level useState record plus the TestGeneration component's own state
(testSummaries, generatedTests), which exists only while that component is
mounted, that is while appState is test-generation; transitions that unmount
the component discard it, and entering test-generation mounts it fresh and
empty.  Events carry the results of the asynchronous work their handlers
perform; each event is guarded by the page on which its control is rendered. -/

/-- The Repository interface of page.tsx. -/
structure Repository where
  id : Nat
  name : String
  full_name : String
  description : String
  language : String
  isPrivate : Bool
deriving DecidableEq

/-- The AppState union of page.tsx. -/
inductive AppPage where
  | landing
  | auth
  | repoSelect
  | fileBrowser
  | testGeneration
  | testManagement
  | prCreation
deriving DecidableEq

/-- The application state: the HomePage useState hooks plus the mounted
TestGeneration component's summaries and generated tests. -/
structure AppModel where
  appState : AppPage
  githubApi : Option String
  selectedRepo : Option Repository
  files : List FileItem
  selectedFiles : List String
  fileContents : List SelectedFileContent
  testSummaries : List TestCaseSummary
  generatedTests : List GeneratedTestCode
  prTestCases : List GeneratedTestCode
  prTestSummaries : List TestCaseSummary

/-- UI events of the workflow; payloads carry the outcome of the asynchronous
work the corresponding handler performs. -/
inductive AppEvent where
  | connect
  | authenticate (token : String)
  | selectRepo (repo : Repository) (tree : Option (List FileItem))
  | toggleFile (path : String) (selected : Bool)
  | generateTests (contents : List SelectedFileContent)
  | summariesReady (summaries : List TestCaseSummary)
  | codesReady (codes : List GeneratedTestCode)
  | manageTests
  | createPR
  | back

/-- handleBack (src/app/page.tsx lines 144-166); leaving test-generation
unmounts the TestGeneration component, discarding its summaries and tests. -/
def handleBack (s : AppModel) : AppModel :=
  match s.appState with
  | AppPage.repoSelect => { s with appState := AppPage.landing, githubApi := none }
  | AppPage.fileBrowser =>
    { s with appState := AppPage.repoSelect, selectedRepo := none, files := [],
             selectedFiles := [] }
  | AppPage.testGeneration =>
    { s with appState := AppPage.fileBrowser, testSummaries := [], generatedTests := [] }
  | AppPage.testManagement => { s with appState := AppPage.testGeneration }
  | AppPage.prCreation => { s with appState := AppPage.testGeneration }
  | _ => s

/-- handleFileSelect (src/app/page.tsx lines 113-119). -/
def handleFileSelect (s : AppModel) (path : String) (selected : Bool) : AppModel :=
  if selected then { s with selectedFiles := s.selectedFiles ++ [path] }
  else { s with selectedFiles := s.selectedFiles.filter (fun p => p ≠ path) }

/-- The transition function: each handler runs when its control is rendered.
The Create PR button is rendered only when generatedTests is nonempty and the
TestGeneration component is mounted (src/components/test-generation.tsx lines
134-138), so the pr-creation transition refuses otherwise; handleCreatePR
(src/app/page.tsx lines 172-176) then snapshots the tests and summaries. -/
def step (s : AppModel) : AppEvent → AppModel
  | AppEvent.connect =>
    if s.appState = AppPage.landing then { s with appState := AppPage.auth } else s
  | AppEvent.authenticate token =>
    if s.appState = AppPage.auth then
      { s with appState := AppPage.repoSelect, githubApi := some token }
    else s
  | AppEvent.selectRepo repo tree =>
    if s.appState = AppPage.repoSelect ∧ s.githubApi ≠ none then
      match tree with
      | some fileTree =>
        { s with selectedRepo := some repo, files := fileTree,
                 appState := AppPage.fileBrowser }
      | none => { s with selectedRepo := some repo }
    else s
  | AppEvent.toggleFile path selected =>
    if s.appState = AppPage.fileBrowser then handleFileSelect s path selected else s
  | AppEvent.generateTests contents =>
    if s.appState = AppPage.fileBrowser ∧ s.githubApi ≠ none ∧ s.selectedRepo ≠ none ∧
        s.selectedFiles ≠ [] then
      { s with fileContents := contents, appState := AppPage.testGeneration,
               testSummaries := [], generatedTests := [] }
    else s
  | AppEvent.summariesReady summaries =>
    if s.appState = AppPage.testGeneration then { s with testSummaries := summaries } else s
  | AppEvent.codesReady codes =>
    if s.appState = AppPage.testGeneration then { s with generatedTests := codes } else s
  | AppEvent.manageTests =>
    if s.appState = AppPage.testGeneration ∧ s.generatedTests ≠ [] then
      { s with appState := AppPage.testManagement, testSummaries := [],
               generatedTests := [] }
    else s
  | AppEvent.createPR =>
    if s.appState = AppPage.testGeneration ∧ s.generatedTests ≠ [] then
      { s with prTestCases := s.generatedTests, prTestSummaries := s.testSummaries,
               appState := AppPage.prCreation, testSummaries := [], generatedTests := [] }
    else s
  | AppEvent.back => handleBack s

/-! ## MockAIService code generation (src/lib/ai-service.ts)

The deterministic local generator backing AIService: phase 2 falls back to it
when the AI call fails, and it is the fallback skeleton the specification
describes (three-block unit skeleton, two-block integration skeleton,
three-block edge-case skeleton). -/

/-- MockAIService.generateUnitTestCode, transcribed with its template text. -/
def generateUnitTestCode (functionName filePath : String) (_isTypeScript : Bool) : String :=
  let importPath := stripCodeExt filePath
  "import \x7b " ++ functionName ++ " \x7d from '" ++ importPath ++ "';\n\ndescribe('"
    ++ functionName
    ++ "', () => \x7b\n  test('should handle valid input correctly', () => \x7b\n    // Arrange\n    const input = /* valid input */;\n    const expected = /* expected output */;\n    \n    // Act\n    const result = "
    ++ functionName
    ++ "(input);\n    \n    // Assert\n    expect(result).toEqual(expected);\n  \x7d);\n  \n  test('should handle edge cases', () => \x7b\n    // Test null/undefined inputs\n    expect(() => "
    ++ functionName ++ "(null)).not.toThrow();\n    expect(() => " ++ functionName
    ++ "(undefined)).not.toThrow();\n  \x7d);\n  \n  test('should handle invalid input', () => \x7b\n    // Test with invalid input\n    const invalidInput = /* invalid input */;\n    expect(() => "
    ++ functionName ++ "(invalidInput)).toThrow();\n  \x7d);\n\x7d);"

/-- The module basename with its code extension stripped, or-else the literal
module, shared by the integration and edge-case templates. -/
def moduleNameOf (filePath : String) : String :=
  let m := stripCodeExt (lastPathComponent filePath)
  if m = "" then "module" else m

/-- MockAIService.generateIntegrationTestCode. -/
def generateIntegrationTestCode (filePath : String) (_isTypeScript : Bool) : String :=
  let moduleName := moduleNameOf filePath
  let importPath := stripCodeExt filePath
  "import * as " ++ moduleName ++ " from '" ++ importPath ++ "';\n\ndescribe('" ++ moduleName
    ++ " integration tests', () => \x7b\n  test('should work with multiple functions together', () => \x7b\n    // Test the interaction between multiple functions\n    // This is a placeholder - customize based on actual module structure\n    expect(true).toBe(true);\n  \x7d);\n  \n  test('should handle complex workflows', () => \x7b\n    // Test end-to-end workflows within the module\n    expect(true).toBe(true);\n  \x7d);\n\x7d);"

/-- MockAIService.generateEdgeCaseTestCode. -/
def generateEdgeCaseTestCode (filePath : String) (_isTypeScript : Bool) : String :=
  let moduleName := moduleNameOf filePath
  let importPath := stripCodeExt filePath
  "import * as " ++ moduleName ++ " from '" ++ importPath ++ "';\n\ndescribe('" ++ moduleName
    ++ " edge cases', () => \x7b\n  test('should handle boundary conditions', () => \x7b\n    // Test with boundary values (empty arrays, max/min numbers, etc.)\n    expect(true).toBe(true);\n  \x7d);\n  \n  test('should handle error conditions gracefully', () => \x7b\n    // Test error scenarios and recovery\n    expect(true).toBe(true);\n  \x7d);\n  \n  test('should handle concurrent operations', () => \x7b\n    // Test race conditions and async edge cases\n    expect(true).toBe(true);\n  \x7d);\n\x7d);"

/-- JS truthiness of the optional functionName. -/
def functionNameTruthy : Option String → Bool
  | some s => decide (s ≠ "")
  | none => false

/-- MockAIService.generateTestCode: the dispatch on testType and functionName
(the processing delay elided). -/
def mockGenerateTestCode (summary : TestCaseSummary) : GeneratedTestCode :=
  let isTypeScript := isTypeScriptPath summary.filePath
  let testCode :=
    if summary.testType = "unit" && functionNameTruthy summary.functionName then
      generateUnitTestCode (summary.functionName.getD "") summary.filePath isTypeScript
    else if summary.testType = "integration" then
      generateIntegrationTestCode summary.filePath isTypeScript
    else
      generateEdgeCaseTestCode summary.filePath isTypeScript
  { id := "test-" ++ summary.id
    summaryId := summary.id
    code := testCode
    framework := "jest"
    language := if isTypeScript then "typescript" else "javascript" }

/-! ## Dates and the ISO codec

The host Date is modelled as a civil timestamp.  Serialization uses the ISO
8601 rendering of Date.prototype.toJSON (the form JSON.stringify writes for
a Date), and loading re-hydrates with the Date constructor on that text. -/

/-- Civil model of the host Date value. -/
structure JsDate where
  year : Nat
  month : Nat
  day : Nat
  hour : Nat
  minute : Nat
  second : Nat
  ms : Nat
deriving DecidableEq

/-- Zero-padded fixed-width decimal digits, most significant first. -/
def padDigits : Nat → Nat → List Char
  | 0, _ => []
  | k + 1, n => decDigitChar (n / 10 ^ k) :: padDigits k (n % 10 ^ k)

/-- The ISO 8601 character rendering of a date, as Date.prototype.toJSON emits
for years below 10000. -/
def isoChars (d : JsDate) : List Char :=
  padDigits 4 d.year ++ ('-' :: (padDigits 2 d.month ++ ('-' :: (padDigits 2 d.day ++
    ('T' :: (padDigits 2 d.hour ++ (':' :: (padDigits 2 d.minute ++ (':' :: (padDigits 2 d.second ++
      ('.' :: (padDigits 3 d.ms ++ ['Z']))))))))))))

/-- The ISO text of a date. -/
def isoString (d : JsDate) : String := String.mk (isoChars d)

/-- Reads exactly k decimal digits into an accumulator. -/
def parseFixedAux : Nat → Nat → List Char → Option (Nat × List Char)
  | 0, acc, cs => some (acc, cs)
  | _ + 1, _, [] => none
  | k + 1, acc, c :: cs =>
    if c.isDigit then parseFixedAux k (acc * 10 + decDigitVal c) cs else none

/-- Consumes one expected character. -/
def expectChar (c : Char) : List Char → Option (List Char)
  | c2 :: cs => if c2 = c then some cs else none
  | [] => none

/-- Reads one fixed-width decimal field followed by its separator. -/
def parseField (k : Nat) (sep : Char) (cs : List Char) : Option (Nat × List Char) :=
  match parseFixedAux k 0 cs with
  | none => none
  | some (v, cs2) =>
    match expectChar sep cs2 with
    | none => none
    | some cs3 => some (v, cs3)

/-- Parses the ISO 8601 form written by isoString: seven fields with their
separators, the trailing Z, and nothing after. -/
def parseIsoChars (cs : List Char) : Option JsDate :=
  Option.bind (parseField 4 '-' cs) fun yr =>
  Option.bind (parseField 2 '-' yr.2) fun mo =>
  Option.bind (parseField 2 'T' mo.2) fun dy =>
  Option.bind (parseField 2 ':' dy.2) fun hr =>
  Option.bind (parseField 2 ':' hr.2) fun mi =>
  Option.bind (parseField 2 '.' mi.2) fun sc =>
  Option.bind (parseField 3 'Z' sc.2) fun ms =>
  if ms.2.isEmpty then some ⟨yr.1, mo.1, dy.1, hr.1, mi.1, sc.1, ms.1⟩ else none

/-- Parsing of ISO text. -/
def parseIsoString (s : String) : Option JsDate := parseIsoChars s.toList

/-- The Date constructor applied to serialized text; an unparseable text gives
the Invalid Date value, modelled by the all-zero sentinel. -/
def jsNewDate (s : String) : JsDate := (parseIsoString s).getD ⟨0, 0, 0, 0, 0, 0, 0⟩

/-- Field bounds under which the ISO rendering is faithful (the month, day and
time fields of a real Date are far below these). -/
def validJsDate (d : JsDate) : Bool :=
  d.year < 10000 && d.month < 100 && d.day < 100 && d.hour < 100 && d.minute < 100 &&
    d.second < 100 && d.ms < 1000

/-- Day-granularity agreement of two dates. -/
def sameDay (a b : JsDate) : Prop := a.year = b.year ∧ a.month = b.month ∧ a.day = b.day

/-! ## Suite Store (src/unnamed/part_000, the TestCaseManager component) -/

/-- The TestCase interface. -/
structure TestCase where
  id : String
  title : String
  description : String
  code : String
  testType : String
  priority : String
  status : String
  filePath : String
  functionName : Option String
  createdAt : JsDate
  updatedAt : JsDate
deriving DecidableEq

/-- The TestSuite interface. -/
structure TestSuite where
  id : String
  name : String
  description : String
  createdAt : JsDate
  updatedAt : JsDate
  tags : List String
  testCases : List TestCase
  framework : String
  language : String
deriving DecidableEq

/-- A test case as it sits in the persisted blob: date fields are the ISO text
JSON.stringify wrote for them. -/
structure StoredTestCase where
  id : String
  title : String
  description : String
  code : String
  testType : String
  priority : String
  status : String
  filePath : String
  functionName : Option String
  createdAt : String
  updatedAt : String
deriving DecidableEq

/-- A suite as it sits in the persisted blob. -/
structure StoredTestSuite where
  id : String
  name : String
  description : String
  createdAt : String
  updatedAt : String
  tags : List String
  testCases : List StoredTestCase
  framework : String
  language : String
deriving DecidableEq

/-- Serialization of one test case: JSON.stringify turns each Date into its
toJSON text and keeps every other field; the host JSON codec is faithful on
the record structure, so the blob is modelled at the record level. -/
def serializeTestCase (c : TestCase) : StoredTestCase :=
  { id := c.id, title := c.title, description := c.description, code := c.code,
    testType := c.testType, priority := c.priority, status := c.status,
    filePath := c.filePath, functionName := c.functionName,
    createdAt := isoString c.createdAt, updatedAt := isoString c.updatedAt }

/-- Serialization of one suite. -/
def serializeTestSuite (s : TestSuite) : StoredTestSuite :=
  { id := s.id, name := s.name, description := s.description,
    createdAt := isoString s.createdAt, updatedAt := isoString s.updatedAt,
    tags := s.tags, testCases := s.testCases.map serializeTestCase,
    framework := s.framework, language := s.language }

/-- Re-hydration of one test case on load (src/unnamed/part_000 lines 75-79):
every field is spread through and the date texts go through the Date
constructor. -/
def hydrateTestCase (c : StoredTestCase) : TestCase :=
  { id := c.id, title := c.title, description := c.description, code := c.code,
    testType := c.testType, priority := c.priority, status := c.status,
    filePath := c.filePath, functionName := c.functionName,
    createdAt := jsNewDate c.createdAt, updatedAt := jsNewDate c.updatedAt }

/-- Re-hydration of one suite on load (src/unnamed/part_000 lines 71-80). -/
def hydrateTestSuite (s : StoredTestSuite) : TestSuite :=
  { id := s.id, name := s.name, description := s.description,
    createdAt := jsNewDate s.createdAt, updatedAt := jsNewDate s.updatedAt,
    tags := s.tags, testCases := s.testCases.map hydrateTestCase,
    framework := s.framework, language := s.language }

/-- saveTestSuites (src/unnamed/part_000 lines 139-142): the localStorage slot
receives the serialized suite list (the component state receives the same list
unserialized). -/
def saveTestSuites (suites : List TestSuite) : Option (List StoredTestSuite) :=
  some (suites.map serializeTestSuite)

/-- The sample suite created on first load (src/unnamed/part_000 lines 84-133). -/
def sampleSuite (now : JsDate) : TestSuite :=
  { id := "sample-1"
    name := "User Authentication Tests"
    description := "Comprehensive test suite for user authentication functionality"
    createdAt := now
    updatedAt := now
    tags := ["auth", "security", "user-management"]
    framework := "jest"
    language := "typescript"
    testCases :=
      [{ id := "test-1"
         title := "Should authenticate valid user"
         description := "Test successful user authentication with valid credentials"
         code := "describe('User Authentication', () => \x7b\n  test('should authenticate valid user', async () => \x7b\n    const user = \x7b email: 'test@example.com', password: 'password123' \x7d;\n    const result = await authenticateUser(user);\n    expect(result.success).toBe(true);\n    expect(result.token).toBeDefined();\n  \x7d);\n\x7d);"
         testType := "unit"
         priority := "high"
         status := "ready"
         filePath := "src/auth/authenticate.ts"
         functionName := some "authenticateUser"
         createdAt := now
         updatedAt := now },
       { id := "test-2"
         title := "Should reject invalid credentials"
         description := "Test authentication failure with invalid credentials"
         code := "test('should reject invalid credentials', async () => \x7b\n  const user = \x7b email: 'test@example.com', password: 'wrongpassword' \x7d;\n  const result = await authenticateUser(user);\n  expect(result.success).toBe(false);\n  expect(result.error).toBe('Invalid credentials');\n\x7d);"
         testType := "unit"
         priority := "high"
         status := "ready"
         filePath := "src/auth/authenticate.ts"
         functionName := some "authenticateUser"
         createdAt := now
         updatedAt := now }] }

/-- The load effect (src/unnamed/part_000 lines 67-136): a present blob is
parsed and re-hydrated; an absent blob seeds the sample suite. -/
def loadTestSuites (storage : Option (List StoredTestSuite)) (now : JsDate) : List TestSuite :=
  match storage with
  | some stored => stored.map hydrateTestSuite
  | none => [sampleSuite now]

/-- createTestSuite (src/unnamed/part_000 lines 144-158); the id template is
suite-(Date.now()), with the millisecond tick and the Date value passed in. -/
def createTestSuite (tick : Nat) (now : JsDate) (name description framework language : String)
    (tags : List String) : TestSuite :=
  { id := "suite-" ++ natDec tick
    name := name
    description := description
    createdAt := now
    updatedAt := now
    tags := tags
    testCases := []
    framework := framework
    language := language }

/-- Modelled from the spec: promote(suiteId, GeneratedTest, title, description)
appends to the addressed suite a TestCase that is an independently-editable
copy of the GeneratedTest (section 4.5); the promotion code itself is not among
the repository sources, only the manager's other CRUD is, so the derived
fields follow the spec's field list with the draft status and unit type as the
initial values and the suite's updatedAt bumped as for the other mutations. -/
def promote (suites : List TestSuite) (suiteId : String) (g : GeneratedTestCode)
    (title description : String) (now : JsDate) : List TestSuite :=
  suites.map fun suite =>
    if suite.id = suiteId then
      { suite with
          testCases := suite.testCases ++
            [{ id := g.id, title := title, description := description, code := g.code,
               testType := "unit", priority := "medium", status := "draft",
               filePath := "", functionName := none, createdAt := now, updatedAt := now }],
          updatedAt := now }
    else suite

/-! ## Suite export (src/unnamed/part_000 lines 194-212) -/

/-- JS whitespace for the slug replace. -/
def jsWs (c : Char) : Bool := c = ' ' || c = '\t' || c = '\n' || c = '\r'

/-- The filename slug: each whitespace run replaced by one dash, then lowercased. -/
def slugAux : Nat → List Char → List Char
  | 0, cs => cs
  | _ + 1, [] => []
  | fuel + 1, c :: cs =>
    if jsWs c then '-' :: slugAux fuel (cs.dropWhile jsWs)
    else c :: slugAux fuel cs

/-- The suite-name slug used in download filenames. -/
def slugName (s : String) : String :=
  asciiToLower (String.mk (slugAux (s.toList.length + 1) s.toList))

/-- Escapes of the JSON string rendering used by the structured export. -/
def jsonEscapeChar (c : Char) : String :=
  if c = '"' then "\\\""
  else if c = '\\' then "\\\\"
  else if c = '\n' then "\\n"
  else if c = '\t' then "\\t"
  else if c = '\r' then "\\r"
  else String.mk [c]

/-- A JSON string literal. -/
def jsonStrLit (s : String) : String :=
  "\"" ++ String.join (s.toList.map jsonEscapeChar) ++ "\""

/-- A JSON array of string literals. -/
def jsonStrArr (l : List String) : String :=
  "[" ++ String.intercalate "," (l.map jsonStrLit) ++ "]"

/-- The JSON text of one stored test case; an absent functionName is omitted,
as JSON.stringify omits undefined fields (the host stringify's pretty-printing
whitespace is not modelled, being irrelevant to every claim). -/
def storedCaseJson (c : StoredTestCase) : String :=
  "\x7b\"id\":" ++ jsonStrLit c.id ++ ",\"title\":" ++ jsonStrLit c.title
    ++ ",\"description\":" ++ jsonStrLit c.description ++ ",\"code\":" ++ jsonStrLit c.code
    ++ ",\"testType\":" ++ jsonStrLit c.testType ++ ",\"priority\":" ++ jsonStrLit c.priority
    ++ ",\"status\":" ++ jsonStrLit c.status ++ ",\"filePath\":" ++ jsonStrLit c.filePath
    ++ (match c.functionName with
        | some fn => ",\"functionName\":" ++ jsonStrLit fn
        | none => "")
    ++ ",\"createdAt\":" ++ jsonStrLit c.createdAt ++ ",\"updatedAt\":" ++ jsonStrLit c.updatedAt
    ++ "\x7d"

/-- The JSON text of one stored suite. -/
def storedSuiteJson (s : StoredTestSuite) : String :=
  "\x7b\"id\":" ++ jsonStrLit s.id ++ ",\"name\":" ++ jsonStrLit s.name
    ++ ",\"description\":" ++ jsonStrLit s.description
    ++ ",\"createdAt\":" ++ jsonStrLit s.createdAt ++ ",\"updatedAt\":" ++ jsonStrLit s.updatedAt
    ++ ",\"tags\":" ++ jsonStrArr s.tags
    ++ ",\"testCases\":[" ++ String.intercalate "," (s.testCases.map storedCaseJson) ++ "]"
    ++ ",\"framework\":" ++ jsonStrLit s.framework ++ ",\"language\":" ++ jsonStrLit s.language
    ++ "\x7d"

/-- The export formats of exportTestSuite. -/
inductive ExportFormat where
  | jest
  | zip
  | json
deriving DecidableEq

/-- The download a branch of exportTestSuite produces. -/
structure ExportDownload where
  filename : String
  mime : String
  content : String
deriving DecidableEq

/-- exportTestSuite (src/unnamed/part_000 lines 194-212): the json branch
serializes the whole suite, the jest branch joins the test-case code bodies
with one blank line; the zip format has no branch and downloads nothing. -/
def exportTestSuite (suite : TestSuite) (format : ExportFormat) : Option ExportDownload :=
  match format with
  | ExportFormat.json =>
    some { filename := slugName suite.name ++ ".json", mime := "application/json",
           content := storedSuiteJson (serializeTestSuite suite) }
  | ExportFormat.jest =>
    some { filename := slugName suite.name ++ ".test.js", mime := "text/plain",
           content := String.intercalate "\n\n" (suite.testCases.map TestCase.code) }
  | ExportFormat.zip => none

/-- The export action in the manager's state: the handler reads the selected
suite and builds a download, touching neither the localStorage blob nor the
suite list (no saveTestSuites, no setState on this path). -/
def exportTestSuiteAction (storage : Option (List StoredTestSuite)) (suites : List TestSuite)
    (suite : TestSuite) (format : ExportFormat) :
    (Option (List StoredTestSuite) × List TestSuite) × Option ExportDownload :=
  ((storage, suites), exportTestSuite suite format)

/-! ## Repository Client branch creation (src/lib/github-api.ts lines 85-110) -/

/-- The two remote operations createBranch performs, as an oracle: reading a
branch head's commit sha and posting the new ref; each yields a value or the
tagged error the request wrapper throws. -/
structure BranchEnv where
  getBranchSha : String → Except String Nat
  createRef : String → Nat → Except String Unit

/-- One un-retried attempt: read the source branch's sha, then post the ref. -/
def createBranchOnce (env : BranchEnv) (newBranch fromBranch : String) : Except String Unit :=
  match env.getBranchSha fromBranch with
  | Except.error e => Except.error e
  | Except.ok sha => env.createRef newBranch sha

/-- createBranch (src/lib/github-api.ts lines 89-110): any failure of the
attempt is caught; when fromBranch is main the whole call is retried against
master, otherwise the error is rethrown. -/
def createBranch (env : BranchEnv) (newBranch fromBranch : String) : Except String Unit :=
  match createBranchOnce env newBranch fromBranch with
  | Except.ok r => Except.ok r
  | Except.error e =>
    if hm : fromBranch = "main" then createBranch env newBranch "master"
    else Except.error e
termination_by if fromBranch = "main" then 1 else 0
decreasing_by simp [hm]

/-! ## Repository listing (src/lib/github-api.ts lines 63-66) -/

/-- The GitHubRepo interface. -/
structure GitHubRepo where
  id : Nat
  name : String
  full_name : String
  description : String
  language : String
  «private» : Bool
deriving DecidableEq

/-- The post-fetch filter of getRepositories, applied to the parsed response
list: the predicate not-private or-else true. -/
def getRepositoriesFilter (repos : List GitHubRepo) : List GitHubRepo :=
  repos.filter (fun repo => !repo.«private» || true)

/-- The behaviour the identity reading of the spec ascribes to the listing:
the host's response returned unchanged. -/
def listRepositoriesSpec (repos : List GitHubRepo) : List GitHubRepo := repos

/-! ## Concrete inputs used by witnesses and counterexamples -/

/-- A selected file for the phase-1 runs. -/
def exFile : SelectedFileContent := ⟨"a.ts", "export const f = 1"⟩

/-- A unit summary for the phase-2 runs. -/
def exSummary : TestCaseSummary :=
  { id := "s1", title := "t", description := "d", testType := "unit", priority := "high",
    estimatedComplexity := 3, functionName := some "foo", filePath := "src/foo.ts" }

/-- A state sitting on the file browser with a built tree. -/
def exBrowserState : AppModel :=
  { appState := AppPage.fileBrowser, githubApi := some "tok", selectedRepo := none,
    files := [FileItem.file "a.ts" "a.ts" "TypeScript"], selectedFiles := ["a.ts"],
    fileContents := [], testSummaries := [], generatedTests := [],
    prTestCases := [], prTestSummaries := [] }

/-- A state on the generation page with no generated tests. -/
def exNoTestsState : AppModel :=
  { appState := AppPage.testGeneration, githubApi := some "tok", selectedRepo := none,
    files := [], selectedFiles := [], fileContents := [], testSummaries := [],
    generatedTests := [], prTestCases := [], prTestSummaries := [] }

/-- A generated test for the suite-store runs. -/
def exGenerated (n : String) : GeneratedTestCode :=
  { id := "test-" ++ n, summaryId := n, code := "expect(true).toBe(true);",
    framework := "jest", language := "typescript" }

/-- A branch environment whose main lookup fails and whose master path works. -/
def exBranchEnv : BranchEnv :=
  { getBranchSha := fun b => if b = "master" then Except.ok 7 else Except.error "404 not found"
    createRef := fun _ _ => Except.ok () }

/-- Concrete dates for the suite-store witness. -/
def exD0 : JsDate := ⟨2024, 5, 1, 10, 30, 0, 250⟩

/-- A later concrete date. -/
def exD1 : JsDate := ⟨2024, 5, 1, 11, 0, 5, 0⟩

/-- A still later concrete date. -/
def exD2 : JsDate := ⟨2024, 5, 2, 9, 15, 30, 999⟩

/-! ## Infrastructure lemmas -/

theorem toList_mk (l : List Char) : (String.mk l).toList = l := rfl

theorem toList_append (a b : String) : (a ++ b).toList = a.toList ++ b.toList := by
  cases a
  cases b
  rfl

theorem decDigitChar_isDigit {n : Nat} (h : n < 10) : (decDigitChar n).isDigit = true := by
  interval_cases n <;> decide

theorem decDigitVal_decDigitChar {n : Nat} (h : n < 10) : decDigitVal (decDigitChar n) = n := by
  interval_cases n <;> decide

theorem decDigitChar_ne_dash {n : Nat} (h : n < 10) : decDigitChar n ≠ '-' := by
  interval_cases n <;> decide

theorem decDigitsVal_append_one (ds : List Char) (c : Char) :
    decDigitsVal (ds ++ [c]) = decDigitsVal ds * 10 + decDigitVal c := by
  simp [decDigitsVal, List.foldl_append]

theorem natDecAux_spec : ∀ fuel n, n < fuel →
    natDecAux fuel n ≠ [] ∧ (∀ c ∈ natDecAux fuel n, c.isDigit = true) ∧
      decDigitsVal (natDecAux fuel n) = n := by
  intro fuel
  induction fuel with
  | zero => intro n h; omega
  | succ fuel ih =>
    intro n h
    by_cases h10 : n < 10
    · refine ⟨by simp [natDecAux, h10], ?_, ?_⟩
      · intro c hc
        simp [natDecAux, h10] at hc
        subst hc
        exact decDigitChar_isDigit h10
      · simp [natDecAux, h10, decDigitsVal, decDigitVal_decDigitChar h10]
    · have hdiv : n / 10 < fuel := by omega
      obtain ⟨ihne, ihdig, ihval⟩ := ih (n / 10) hdiv
      refine ⟨by simp [natDecAux, h10], ?_, ?_⟩
      · intro c hc
        simp [natDecAux, h10] at hc
        rcases hc with hc | hc
        · exact ihdig c hc
        · subst hc
          exact decDigitChar_isDigit (by omega)
      · simp only [natDecAux, if_neg h10]
        rw [decDigitsVal_append_one, ihval, decDigitVal_decDigitChar (by omega)]
        omega

theorem natDecChars_ne_nil (n : Nat) : natDecChars n ≠ [] :=
  (natDecAux_spec (n + 1) n (Nat.lt_succ_self n)).1

theorem natDecChars_digits (n : Nat) : ∀ c ∈ natDecChars n, c.isDigit = true :=
  (natDecAux_spec (n + 1) n (Nat.lt_succ_self n)).2.1

theorem decDigitsVal_natDecChars (n : Nat) : decDigitsVal (natDecChars n) = n :=
  (natDecAux_spec (n + 1) n (Nat.lt_succ_self n)).2.2

theorem natDecChars_ne_dash (n : Nat) : ∀ c ∈ natDecChars n, c ≠ '-' := by
  intro c hc
  have := natDecChars_digits n c hc
  intro he
  subst he
  simp at this

theorem natDecChars_inj {a b : Nat} (h : natDecChars a = natDecChars b) : a = b := by
  have := decDigitsVal_natDecChars a
  rw [h, decDigitsVal_natDecChars] at this
  omega

theorem noDash_split_unique :
    ∀ (xs xs' ys ys' : List Char), (∀ c ∈ xs, c ≠ '-') → (∀ c ∈ xs', c ≠ '-') →
      xs ++ '-' :: ys = xs' ++ '-' :: ys' → xs = xs' ∧ ys = ys' := by
  intro xs
  induction xs with
  | nil =>
    intro xs' ys ys' _ hx' h
    cases xs' with
    | nil => simpa using h
    | cons c cs =>
      simp at h
      exact absurd h.1.symm (hx' c (by simp))
  | cons c cs ih =>
    intro xs' ys ys' hx hx' h
    cases xs' with
    | nil =>
      simp at h
      exact absurd h.1 (hx c (by simp))
    | cons c' cs' =>
      simp at h
      obtain ⟨rfl, h2⟩ := h
      obtain ⟨h3, h4⟩ := ih cs' ys ys' (fun d hd => hx d (by simp [hd]))
        (fun d hd => hx' d (by simp [hd])) h2
      exact ⟨by simp [h3], h4⟩

theorem mkGeminiId_toList (t k : Nat) :
    (mkGeminiId t k).toList = "gemini-".toList ++ (natDecChars t ++ '-' :: natDecChars k) := by
  simp only [mkGeminiId, toList_append, natDec, toList_mk]
  have hdash : ("-" : String).toList = ['-'] := rfl
  rw [hdash]
  simp [List.append_assoc]

theorem mkFallbackId_toList (t : Nat) :
    (mkFallbackId t).toList = "fallback-".toList ++ natDecChars t := by
  simp only [mkFallbackId, toList_append, natDec, toList_mk]

theorem mkGeminiId_inj {t k t' k' : Nat} (h : mkGeminiId t k = mkGeminiId t' k') :
    t = t' ∧ k = k' := by
  have hl := congrArg String.toList h
  rw [mkGeminiId_toList, mkGeminiId_toList] at hl
  have hl2 := List.append_cancel_left hl
  obtain ⟨h1, h2⟩ := noDash_split_unique _ _ _ _ (natDecChars_ne_dash t) (natDecChars_ne_dash t') hl2
  exact ⟨natDecChars_inj h1, natDecChars_inj h2⟩

theorem mkFallbackId_inj {t t' : Nat} (h : mkFallbackId t = mkFallbackId t') : t = t' := by
  have hl := congrArg String.toList h
  rw [mkFallbackId_toList, mkFallbackId_toList] at hl
  exact natDecChars_inj (List.append_cancel_left hl)

theorem mkGeminiId_ne_mkFallbackId (t k t' : Nat) : mkGeminiId t k ≠ mkFallbackId t' := by
  intro h
  have hl := congrArg String.toList h
  rw [mkGeminiId_toList, mkFallbackId_toList] at hl
  have hg : "gemini-".toList = 'g' :: "emini-".toList := rfl
  have hf : "fallback-".toList = 'f' :: "allback-".toList := rfl
  rw [hg, hf] at hl
  simp at hl

/-! ## Phase-1 lemmas and claim C1 -/

theorem summariesOfItems_id_shape (fp : String) (t : Nat) :
    ∀ (items : List JValue) (k : Nat) (s : TestCaseSummary),
      s ∈ summariesOfItems fp t k items → ∃ j, k ≤ j ∧ s.id = mkGeminiId t j := by
  intro items
  induction items with
  | nil => intro k s hs; simp [summariesOfItems] at hs
  | cons item rest ih =>
    intro k s hs
    simp only [summariesOfItems, List.mem_cons] at hs
    rcases hs with rfl | hs
    · exact ⟨k, le_refl k, rfl⟩
    · obtain ⟨j, hj, hid⟩ := ih (k + 1) s hs
      exact ⟨j, by omega, hid⟩

theorem summariesOfItems_pairwise (fp : String) (t : Nat) :
    ∀ (items : List JValue) (k : Nat),
      (summariesOfItems fp t k items).Pairwise (fun a b => a.id ≠ b.id) := by
  intro items
  induction items with
  | nil => intro k; simp [summariesOfItems]
  | cons item rest ih =>
    intro k
    simp only [summariesOfItems]
    refine List.Pairwise.cons ?_ (ih (k + 1))
    intro s hs
    obtain ⟨j, hj, hid⟩ := summariesOfItems_id_shape fp t rest (k + 1) s hs
    simp only [summaryOfItem, hid]
    intro he
    have := (mkGeminiId_inj he).2
    omega

theorem parseAIResponse_id_shape (text fp : String) (t : Nat) (s : TestCaseSummary)
    (hs : s ∈ parseAIResponse text fp t) :
    s.id = mkFallbackId t ∨ ∃ j, s.id = mkGeminiId t j := by
  unfold parseAIResponse at hs
  dsimp only at hs
  split at hs
  · simp at hs
    subst hs
    exact Or.inl rfl
  · split at hs
    · obtain ⟨j, _, hid⟩ := summariesOfItems_id_shape fp t _ 0 s hs
      exact Or.inr ⟨j, hid⟩
    · simp at hs
      subst hs
      exact Or.inl rfl

theorem parseAIResponse_pairwise (text fp : String) (t : Nat) :
    (parseAIResponse text fp t).Pairwise (fun a b => a.id ≠ b.id) := by
  unfold parseAIResponse
  dsimp only
  split
  · simp
  · split
    · exact summariesOfItems_pairwise fp t _ 0
    · simp

theorem summariesForFile_id_shape (outcome : Nat → AIOutcome) (clock : Nat → Nat) (i : Nat)
    (f : SelectedFileContent) (s : TestCaseSummary) (hs : s ∈ summariesForFile outcome clock i f) :
    s.id = mkFallbackId (clock i) ∨ ∃ j, s.id = mkGeminiId (clock i) j := by
  unfold summariesForFile at hs
  split at hs
  · simp at hs
    subst hs
    exact Or.inl rfl
  · exact parseAIResponse_id_shape _ f.path (clock i) s hs

theorem summariesForFile_pairwise (outcome : Nat → AIOutcome) (clock : Nat → Nat) (i : Nat)
    (f : SelectedFileContent) :
    (summariesForFile outcome clock i f).Pairwise (fun a b => a.id ≠ b.id) := by
  unfold summariesForFile
  split
  · simp
  · exact parseAIResponse_pairwise _ f.path (clock i)

theorem genSummariesFrom_id_shape (outcome : Nat → AIOutcome) (clock : Nat → Nat) :
    ∀ (files : List SelectedFileContent) (i : Nat) (s : TestCaseSummary),
      s ∈ genSummariesFrom outcome clock i files →
      ∃ j, i ≤ j ∧ (s.id = mkFallbackId (clock j) ∨ ∃ k, s.id = mkGeminiId (clock j) k) := by
  intro files
  induction files with
  | nil => intro i s hs; simp [genSummariesFrom] at hs
  | cons f rest ih =>
    intro i s hs
    simp only [genSummariesFrom, List.mem_append] at hs
    rcases hs with hs | hs
    · exact ⟨i, le_refl i, summariesForFile_id_shape outcome clock i f s hs⟩
    · obtain ⟨j, hj, hshape⟩ := ih (i + 1) s hs
      exact ⟨j, by omega, hshape⟩

theorem stamp_ne_of_shape {t t' : Nat} (hne : t ≠ t') (a b : TestCaseSummary)
    (ha : a.id = mkFallbackId t ∨ ∃ k, a.id = mkGeminiId t k)
    (hb : b.id = mkFallbackId t' ∨ ∃ k, b.id = mkGeminiId t' k) : a.id ≠ b.id := by
  intro he
  rcases ha with ha | ⟨k, ha⟩ <;> rcases hb with hb | ⟨k', hb⟩
  · rw [ha, hb] at he
    exact hne (mkFallbackId_inj he)
  · rw [ha, hb] at he
    exact mkGeminiId_ne_mkFallbackId t' k' t he.symm
  · rw [ha, hb] at he
    exact mkGeminiId_ne_mkFallbackId t k t' he
  · rw [ha, hb] at he
    exact hne (mkGeminiId_inj he).1

theorem genSummariesFrom_pairwise (outcome : Nat → AIOutcome) (clock : Nat → Nat)
    (hclock : StrictMono clock) :
    ∀ (files : List SelectedFileContent) (i : Nat),
      (genSummariesFrom outcome clock i files).Pairwise (fun a b => a.id ≠ b.id) := by
  intro files
  induction files with
  | nil => intro i; simp [genSummariesFrom]
  | cons f rest ih =>
    intro i
    simp only [genSummariesFrom]
    rw [List.pairwise_append]
    refine ⟨summariesForFile_pairwise outcome clock i f, ih (i + 1), ?_⟩
    intro a ha b hb
    have hsa := summariesForFile_id_shape outcome clock i f a ha
    obtain ⟨j, hj, hsb⟩ := genSummariesFrom_id_shape outcome clock rest (i + 1) b hb
    exact stamp_ne_of_shape (Nat.ne_of_lt (hclock (by omega))) a b hsa hsb

theorem genSummariesFrom_length_ge (outcome : Nat → AIOutcome) (clock : Nat → Nat) :
    ∀ (files : List SelectedFileContent) (i : Nat),
      (∀ j f, files.get? j = some f → ∀ text, outcome (i + j) = AIOutcome.reply text →
        parseAIResponse text f.path (clock (i + j)) ≠ []) →
      files.length ≤ (genSummariesFrom outcome clock i files).length := by
  intro files
  induction files with
  | nil => intro i _; simp [genSummariesFrom]
  | cons f rest ih =>
    intro i hne
    simp only [genSummariesFrom, List.length_append, List.length_cons]
    have hbatch : summariesForFile outcome clock i f ≠ [] := by
      unfold summariesForFile
      split
      · simp
      · next text ho => exact hne 0 f rfl text (by simpa using ho)
    have h1 : 1 ≤ (summariesForFile outcome clock i f).length :=
      Nat.succ_le_of_lt (List.length_pos.mpr hbatch)
    have h2 := ih (i + 1) (fun j g hg text ht => by
      have heq : i + 1 + j = i + (j + 1) := by omega
      have := hne (j + 1) g (by simpa using hg) text (by rw [← heq]; exact ht)
      rw [heq]
      exact this)
    omega

/-- C1 (amended): phase-1 generation on N files yields at least N summaries
provided no successful reply parses to the empty JSON array (each such file
otherwise contributes zero summaries and no fallback), and all ids are pairwise
distinct provided the millisecond clock strictly increases from one file to the
next (equal Date.now() readings otherwise collide the ids). -/
theorem claim1_amended (files : List SelectedFileContent) (outcome : Nat → AIOutcome)
    (clock : Nat → Nat)
    (hparse : ∀ j f, files.get? j = some f → ∀ text, outcome j = AIOutcome.reply text →
      parseAIResponse text f.path (clock j) ≠ [])
    (hclock : StrictMono clock) :
    files.length ≤ (generateTestSummariesAction files outcome clock).length ∧
      (generateTestSummariesAction files outcome clock).Pairwise (fun a b => a.id ≠ b.id) := by
  constructor
  · exact genSummariesFrom_length_ge outcome clock files 0 (fun j f hf text ht => by
      rw [Nat.zero_add] at ht ⊢
      exact hparse j f hf text ht)
  · exact genSummariesFrom_pairwise outcome clock hclock files 0

/-- Witness for C1: one file whose AI call fails yields its fallback summary,
meeting the bound and the uniqueness under the identity clock. -/
theorem claim1_witness :
    ([exFile] : List SelectedFileContent).length ≤
        (generateTestSummariesAction [exFile] (fun _ => AIOutcome.failure) (fun i => i)).length ∧
      (generateTestSummariesAction [exFile] (fun _ => AIOutcome.failure) (fun i => i)).Pairwise
        (fun a b => a.id ≠ b.id) :=
  claim1_amended [exFile] (fun _ => AIOutcome.failure) (fun i => i)
    (fun _ _ _ _ ht => nomatch ht) (fun _ _ h => h)


/-- Counterexample to C1 as stated: a reply whose array literal parses to the
empty array produces zero summaries for its file, so one file yields fewer than
one summary; and two fallback files at an unadvanced Date.now() receive the
same id, so the ids are not pairwise distinct. -/
theorem claim1_counterexample :
    ¬ (([exFile] : List SelectedFileContent).length ≤
        (generateTestSummariesAction [exFile] (fun _ => AIOutcome.reply "[]")
          (fun _ => 0)).length) ∧
      ¬ ((generateTestSummariesAction [exFile, exFile] (fun _ => AIOutcome.failure)
          (fun _ => 5)).Pairwise (fun a b => a.id ≠ b.id)) := by
  exact ⟨by decide, by decide⟩

/-! ## Phase-2 lemmas and claim C2 -/

theorem toList_ne_nil_of_append_left {a b : String} (h : a.toList ≠ []) : a ++ b ≠ "" := by
  intro hab
  apply h
  have h2 := congrArg String.toList hab
  rw [toList_append] at h2
  have h3 : ("" : String).toList = [] := rfl
  rw [h3] at h2
  exact (List.append_eq_nil.mp h2).1

theorem createFallbackTestCode_code_ne_empty (s : TestCaseSummary) :
    (createFallbackTestCode s).code ≠ "" := by
  unfold createFallbackTestCode
  dsimp only
  apply toList_ne_nil_of_append_left
  apply List.ne_nil_of_length_pos
  rw [toList_append]
  simp [List.length_append]

theorem genCodeFrom_length (outcome : Nat → AIOutcome) :
    ∀ (l : List TestCaseSummary) (i : Nat), (genCodeFrom outcome i l).length = l.length := by
  intro l
  induction l with
  | nil => intro i; rfl
  | cons s rest ih => intro i; simp [genCodeFrom, ih (i + 1)]

theorem genCodeFrom_get? (outcome : Nat → AIOutcome) :
    ∀ (l : List TestCaseSummary) (i j : Nat),
      (genCodeFrom outcome i l).get? j =
        (l.get? j).map (fun s => generateTestCodeAction s (outcome (i + j))) := by
  intro l
  induction l with
  | nil => intro i j; simp [genCodeFrom]
  | cons s rest ih =>
    intro i j
    cases j with
    | zero => simp [genCodeFrom]
    | succ j =>
      simp only [genCodeFrom, List.get?_cons_succ, ih (i + 1) j]
      have : i + 1 + j = i + (j + 1) := by omega
      rw [this]

theorem genCodeFrom_code_ne (outcome : Nat → AIOutcome) :
    ∀ (l : List TestCaseSummary) (i : Nat),
      (∀ j text, j < l.length → outcome (i + j) = AIOutcome.reply text →
        jsTrim (stripFences text) ≠ "") →
      ∀ t ∈ genCodeFrom outcome i l, t.code ≠ "" := by
  intro l
  induction l with
  | nil => intro i _ t ht; simp [genCodeFrom] at ht
  | cons s rest ih =>
    intro i hok t ht
    simp only [genCodeFrom, List.mem_cons] at ht
    rcases ht with rfl | ht
    · rcases ho : outcome i with _ | text
      · exact createFallbackTestCode_code_ne_empty s
      · show jsTrim (stripFences text) ≠ ""
        exact hok 0 text (by simp) (by simpa using ho)
    · exact ih (i + 1) (fun j text hj ht2 => by
        have heq : i + 1 + j = i + (j + 1) := by omega
        exact hok (j + 1) text (by simpa using hj) (by rw [heq] at ht2; exact ht2)) t ht

/-- C2 (amended): phase-2 generation on K selected summaries yields exactly K
GeneratedTest records, the j-th being the action's result on the j-th summary
in order; every code field is non-empty provided each successful reply is
non-whitespace once fences are stripped (a successful empty reply otherwise
yields an empty code), and in particular in the all-failure run, where every
record comes from the non-empty fallback skeleton. -/
theorem claim2_amended (selected : List TestCaseSummary) (outcome : Nat → AIOutcome)
    (hok : ∀ j text, j < selected.length → outcome j = AIOutcome.reply text →
      jsTrim (stripFences text) ≠ "") :
    (generateTestCode selected outcome).length = selected.length ∧
      (∀ j, (generateTestCode selected outcome).get? j =
        (selected.get? j).map (fun s => generateTestCodeAction s (outcome j))) ∧
      ∀ t ∈ generateTestCode selected outcome, t.code ≠ "" := by
  refine ⟨genCodeFrom_length outcome selected 0, ?_, ?_⟩
  · intro j
    have := genCodeFrom_get? outcome selected 0 j
    rwa [Nat.zero_add] at this
  · exact genCodeFrom_code_ne outcome selected 0 (fun j text hj ht => by
      rw [Nat.zero_add] at ht
      exact hok j text hj ht)

/-- Witness for C2: one selected summary in the run where the only AI call
fails; the fallback supplies a record with non-empty code. -/
theorem claim2_witness :
    (generateTestCode [exSummary] (fun _ => AIOutcome.failure)).length =
        ([exSummary] : List TestCaseSummary).length ∧
      (∀ j, (generateTestCode [exSummary] (fun _ => AIOutcome.failure)).get? j =
        (([exSummary] : List TestCaseSummary).get? j).map
          (fun s => generateTestCodeAction s AIOutcome.failure)) ∧
      ∀ t ∈ generateTestCode [exSummary] (fun _ => AIOutcome.failure), t.code ≠ "" :=
  claim2_amended [exSummary] (fun _ => AIOutcome.failure) (fun _ _ _ ht => nomatch ht)

/-- Counterexample to C2 as stated: a successful AI call whose reply is the
empty string produces a record whose code field is empty, so the non-empty-code
guarantee does not hold over every run. -/
theorem claim2_counterexample :
    ¬ (∀ t ∈ generateTestCode [exSummary] (fun _ => AIOutcome.reply ""), t.code ≠ "") := by
  decide

/-! ## Claim C3: tree-builder partial-failure isolation -/

/-- C3: when the listing call for one directory fails, the built tree still
contains that directory as a node with an empty children sequence, in place,
and every sibling entry before and after it is built exactly as it would have
been on its own; the build neither aborts nor drops any other entry. -/
theorem claim3 (pre post : List RemoteEntry) (name path : String) :
    buildFileTree (pre ++ RemoteEntry.dir name path none :: post) =
      buildFileTree pre ++ FileItem.directory name path [] :: buildFileTree post := by
  induction pre with
  | nil => simp [buildFileTree]
  | cons e rest ih =>
    cases e with
    | file n p =>
      by_cases ht : isTestableFile n
      · simp [buildFileTree, ht, ih]
      · simp [buildFileTree, ht, ih]
    | dir n p listing =>
      cases listing with
      | none => simp [buildFileTree, ih]
      | some l => simp [buildFileTree, ih]

/-! ## Claim C4: workflow state machine -/

/-- C4: back from file browsing always lands on repository selection with the
tree, the selection and the selected repository cleared; and no event enters
pr-creation from a state whose generated-test set is empty, the create-PR
transition itself being a no-op there. -/
theorem claim4 :
    (∀ s : AppModel, s.appState = AppPage.fileBrowser →
      (step s AppEvent.back).appState = AppPage.repoSelect ∧
        (step s AppEvent.back).files = [] ∧
        (step s AppEvent.back).selectedFiles = [] ∧
        (step s AppEvent.back).selectedRepo = none) ∧
      (∀ (s : AppModel) (e : AppEvent), s.generatedTests = [] →
        s.appState ≠ AppPage.prCreation → (step s e).appState ≠ AppPage.prCreation) ∧
      (∀ s : AppModel, s.generatedTests = [] → step s AppEvent.createPR = s) := by
  refine ⟨?_, ?_, ?_⟩
  · intro s h
    simp [step, handleBack, h]
  · intro s e hg hs
    cases e with
    | connect =>
      simp only [step]
      split
      · simp
      · exact hs
    | authenticate token =>
      simp only [step]
      split
      · simp
      · exact hs
    | selectRepo repo tree =>
      simp only [step]
      split
      · cases tree with
        | none => simpa using hs
        | some t => simp
      · exact hs
    | toggleFile path selected =>
      simp only [step]
      split
      · unfold handleFileSelect
        split
        · simpa using hs
        · simpa using hs
      · exact hs
    | generateTests contents =>
      simp only [step]
      split
      · simp
      · exact hs
    | summariesReady l =>
      simp only [step]
      split
      · simpa using hs
      · exact hs
    | codesReady l =>
      simp only [step]
      split
      · simpa using hs
      · exact hs
    | manageTests =>
      simp only [step]
      split
      · simp
      · exact hs
    | createPR =>
      simp only [step]
      split
      · next h => exact absurd hg h.2
      · exact hs
    | back =>
      simp only [step]
      unfold handleBack
      split
      · simp
      · simp
      · simp
      · simp
      · simp
      · exact hs
  · intro s hg
    simp only [step]
    rw [if_neg]
    intro h
    exact h.2 hg

/-- Witness for C4: a concrete browser state goes back to repository selection
cleared, and the create-PR event is refused on a generation state with no
generated tests. -/
theorem claim4_witness :
    ((step exBrowserState AppEvent.back).appState = AppPage.repoSelect ∧
        (step exBrowserState AppEvent.back).files = [] ∧
        (step exBrowserState AppEvent.back).selectedFiles = [] ∧
        (step exBrowserState AppEvent.back).selectedRepo = none) ∧
      step exNoTestsState AppEvent.createPR = exNoTestsState :=
  ⟨claim4.1 exBrowserState rfl, claim4.2.2 exNoTestsState rfl⟩

/-! ## Claim C5: the testable allow-list and the language map -/

theorem contains_eq_lookup_isSome (l : List (String × String)) (e : String) :
    (l.map Prod.fst).contains e = (l.lookup e).isSome := by
  induction l with
  | nil => rfl
  | cons kv rest ih =>
    obtain ⟨k, v⟩ := kv
    cases hbe : e == k with
    | true => simp [List.lookup, hbe]
    | false => simpa [List.lookup, hbe] using ih

theorem lookup_mem_values (l : List (String × String)) (e v : String)
    (h : l.lookup e = some v) : v ∈ l.map Prod.snd := by
  induction l with
  | nil => simp [List.lookup] at h
  | cons kv rest ih =>
    obtain ⟨k, w⟩ := kv
    simp only [List.lookup] at h
    cases hbe : e == k
    · rw [hbe] at h
      simp only [] at h
      simp [ih h]
    · rw [hbe] at h
      simp only [] at h
      simp at h
      simp [h]

theorem testable_iff_known (name : String) :
    isTestableFile name = true ↔ getFileLanguage name ≠ "Unknown" := by
  unfold isTestableFile getFileLanguage
  have hkeys : testableExtensions = languageMap.map Prod.fst := by decide
  rw [hkeys, contains_eq_lookup_isSome]
  rcases hl : languageMap.lookup (fileExt name) with _ | v
  · simp
  · simp only [Option.isSome_some, Option.getD_some]
    constructor
    · intro _
      have hv := lookup_mem_values languageMap (fileExt name) v hl
      fin_cases hv <;> decide
    · intro _
      trivial

theorem catalog_spec : ∀ entries : List RemoteEntry,
    catalogFiles (buildFileTree entries) =
      ((remoteFiles entries).filter (fun e => isTestableFile e.1)).map
        (fun e => (e.1, e.2, getFileLanguage e.1))
  | [] => by simp [buildFileTree, catalogFiles, remoteFiles]
  | RemoteEntry.dir n p none :: rest => by
    simp only [buildFileTree, catalogFiles, remoteFiles]
    exact catalog_spec rest
  | RemoteEntry.dir n p (some l) :: rest => by
    simp only [buildFileTree, catalogFiles, remoteFiles]
    rw [catalog_spec l, catalog_spec rest]
    simp [List.filter_append, List.map_append]
  | RemoteEntry.file n p :: rest => by
    by_cases ht : isTestableFile n
    · simp [buildFileTree, ht, catalogFiles, remoteFiles, List.filter_cons, catalog_spec rest]
    · simp [buildFileTree, ht, catalogFiles, remoteFiles, List.filter_cons, catalog_spec rest]

/-- C5: a file entry of the remote snapshot appears in the built catalog, at
every directory depth, exactly when the lowercased final dot-component of its
name is on the allow-list, and it then carries its mapped language; the
allow-list coincides with the key set of the language map, so every catalog
file's language differs from the Unknown sentinel. -/
theorem claim5 :
    (∀ name, isTestableFile name = true ↔ getFileLanguage name ≠ "Unknown") ∧
      ∀ entries : List RemoteEntry,
        catalogFiles (buildFileTree entries) =
          ((remoteFiles entries).filter (fun e => isTestableFile e.1)).map
            (fun e => (e.1, e.2, getFileLanguage e.1)) :=
  ⟨testable_iff_known, catalog_spec⟩

/-! ## Claim C6: the deterministic unit-test fallback skeleton -/

set_option maxRecDepth 40000

/-- C6: the deterministic fallback for a unit summary with functionName foo and
filePath src/foo.ts dispatches to the unit skeleton, whose code imports foo
from the extension-stripped module path src/foo and contains exactly three test
blocks: the valid-input equality check, the null and undefined non-throw
checks, and the invalid-input throw check. -/
theorem claim6 :
    stripCodeExt "src/foo.ts" = "src/foo" ∧
      (mockGenerateTestCode exSummary).code = generateUnitTestCode "foo" "src/foo.ts" true ∧
      containsStr (mockGenerateTestCode exSummary).code
        "import \x7b foo \x7d from 'src/foo';" = true ∧
      countOccur "test(" (mockGenerateTestCode exSummary).code = 3 ∧
      containsStr (mockGenerateTestCode exSummary).code "expect(result).toEqual(expected);" = true ∧
      containsStr (mockGenerateTestCode exSummary).code
        "expect(() => foo(null)).not.toThrow();" = true ∧
      containsStr (mockGenerateTestCode exSummary).code
        "expect(() => foo(undefined)).not.toThrow();" = true ∧
      containsStr (mockGenerateTestCode exSummary).code
        "expect(() => foo(invalidInput)).toThrow();" = true := by
  decide

/-! ## Claim C7: the jest export is a pure projection -/

/-- C7: exporting a suite in the jest code-bundle format yields exactly the
test-case code bodies in suite order joined by one blank line, and the action
leaves both the persisted blob and the suite list untouched. -/
theorem claim7 (storage : Option (List StoredTestSuite)) (suites : List TestSuite)
    (suite : TestSuite) :
    (exportTestSuiteAction storage suites suite ExportFormat.jest).1 = (storage, suites) ∧
      ((exportTestSuiteAction storage suites suite ExportFormat.jest).2.map
          ExportDownload.content) =
        some (String.intercalate "\n\n" (suite.testCases.map TestCase.code)) :=
  ⟨rfl, rfl⟩

/-! ## Claim C8: suite store round-trip -/

theorem parseFixed_pad :
    ∀ (k n acc : Nat) (rest : List Char), n < 10 ^ k →
      parseFixedAux k acc (padDigits k n ++ rest) = some (acc * 10 ^ k + n, rest) := by
  intro k
  induction k with
  | zero =>
    intro n acc rest h
    simp [padDigits, parseFixedAux]
    omega
  | succ k ih =>
    intro n acc rest h
    have hpow : 10 ^ (k + 1) = 10 ^ k * 10 := pow_succ 10 k
    have hq : n / 10 ^ k < 10 := Nat.div_lt_of_lt_mul (by rw [← hpow]; exact h)
    have hr : n % 10 ^ k < 10 ^ k := Nat.mod_lt n (Nat.pos_pow_of_pos k (by norm_num))
    have hstep : padDigits (k + 1) n ++ rest =
        decDigitChar (n / 10 ^ k) :: (padDigits k (n % 10 ^ k) ++ rest) := by
      simp [padDigits]
    rw [hstep]
    simp only [parseFixedAux, decDigitChar_isDigit hq, if_true]
    rw [decDigitVal_decDigitChar hq, ih (n % 10 ^ k) (acc * 10 + n / 10 ^ k) rest hr]
    have hd := Nat.div_add_mod n (10 ^ k)
    congr 2
    rw [hpow]
    nlinarith [hd]

theorem expectChar_cons (c : Char) (rest : List Char) : expectChar c (c :: rest) = some rest := by
  simp [expectChar]

theorem parseField_pad (k : Nat) (sep : Char) (n : Nat) (rest : List Char) (h : n < 10 ^ k) :
    parseField k sep (padDigits k n ++ (sep :: rest)) = some (n, rest) := by
  unfold parseField
  rw [parseFixed_pad k n 0 _ h]
  simp [expectChar_cons]

theorem parseIso_isoChars (d : JsDate) (hv : validJsDate d = true) :
    parseIsoChars (isoChars d) = some d := by
  have hb := hv
  simp only [validJsDate, Bool.and_eq_true, decide_eq_true_eq] at hb
  obtain ⟨⟨⟨⟨⟨⟨h1, h2⟩, h3⟩, h4⟩, h5⟩, h6⟩, h7⟩ := hb
  have h1' : d.year < 10 ^ 4 := by norm_num; exact h1
  have h2' : d.month < 10 ^ 2 := by norm_num; exact h2
  have h3' : d.day < 10 ^ 2 := by norm_num; exact h3
  have h4' : d.hour < 10 ^ 2 := by norm_num; exact h4
  have h5' : d.minute < 10 ^ 2 := by norm_num; exact h5
  have h6' : d.second < 10 ^ 2 := by norm_num; exact h6
  have h7' : d.ms < 10 ^ 3 := by norm_num; exact h7
  unfold parseIsoChars isoChars
  rw [parseField_pad 4 '-' d.year _ h1']
  simp only [Option.some_bind]
  rw [parseField_pad 2 '-' d.month _ h2']
  simp only [Option.some_bind]
  rw [parseField_pad 2 'T' d.day _ h3']
  simp only [Option.some_bind]
  rw [parseField_pad 2 ':' d.hour _ h4']
  simp only [Option.some_bind]
  rw [parseField_pad 2 ':' d.minute _ h5']
  simp only [Option.some_bind]
  rw [parseField_pad 2 '.' d.second _ h6']
  simp only [Option.some_bind]
  rw [parseField_pad 3 'Z' d.ms _ h7']
  simp only [Option.some_bind]
  simp

theorem jsNewDate_isoString (d : JsDate) (hv : validJsDate d = true) :
    jsNewDate (isoString d) = d := by
  unfold jsNewDate parseIsoString isoString
  rw [toList_mk, parseIso_isoChars d hv]
  rfl

theorem hydrate_serialize_case (c : TestCase) (h1 : validJsDate c.createdAt = true)
    (h2 : validJsDate c.updatedAt = true) : hydrateTestCase (serializeTestCase c) = c := by
  unfold hydrateTestCase serializeTestCase
  simp [jsNewDate_isoString _ h1, jsNewDate_isoString _ h2]

theorem hydrate_serialize_suite (s : TestSuite) (h1 : validJsDate s.createdAt = true)
    (h2 : validJsDate s.updatedAt = true)
    (h3 : ∀ c ∈ s.testCases, validJsDate c.createdAt = true ∧ validJsDate c.updatedAt = true) :
    hydrateTestSuite (serializeTestSuite s) = s := by
  unfold hydrateTestSuite serializeTestSuite
  simp only [List.map_map]
  have hcases : s.testCases.map (hydrateTestCase ∘ serializeTestCase) = s.testCases :=
    calc s.testCases.map (hydrateTestCase ∘ serializeTestCase)
        = s.testCases.map id :=
          List.map_congr_left (fun c hc => hydrate_serialize_case c (h3 c hc).1 (h3 c hc).2)
      _ = s.testCases := List.map_id _
  simp [jsNewDate_isoString _ h1, jsNewDate_isoString _ h2, hcases]

theorem promote_singleton (s : TestSuite) (sid : String) (hid : s.id = sid)
    (g : GeneratedTestCode) (title description : String) (now : JsDate) :
    promote [s] sid g title description now =
      [{ s with
          testCases := s.testCases ++
            [{ id := g.id, title := title, description := description, code := g.code,
               testType := "unit", priority := "medium", status := "draft",
               filePath := "", functionName := none, createdAt := now, updatedAt := now }],
          updatedAt := now }] := by
  simp [promote, hid]

theorem sameDay_refl (d : JsDate) : sameDay d d := ⟨rfl, rfl, rfl⟩

/-- C8: creating a suite, promoting two generated tests into it, persisting and
re-loading yields one suite with the same name, two test cases, and date
fields that, re-hydrated from their serialized ISO text, agree with the
originals (in particular at day granularity): the suite keeps its creation
date, its update date is the second promotion's, and the two cases keep their
promotion dates. -/
theorem claim8 (name desc fw lang : String) (tags : List String) (t0 : Nat)
    (d0 d1 d2 dLoad : JsDate) (g1 g2 : GeneratedTestCode) (ti1 de1 ti2 de2 : String)
    (h0 : validJsDate d0 = true) (h1 : validJsDate d1 = true) (h2 : validJsDate d2 = true) :
    ∃ s',
      loadTestSuites
          (saveTestSuites
            (promote
              (promote [createTestSuite t0 d0 name desc fw lang tags]
                (createTestSuite t0 d0 name desc fw lang tags).id g1 ti1 de1 d1)
              (createTestSuite t0 d0 name desc fw lang tags).id g2 ti2 de2 d2))
          dLoad = [s'] ∧
        s'.name = name ∧ s'.testCases.length = 2 ∧
        sameDay s'.createdAt d0 ∧ sameDay s'.updatedAt d2 ∧
        s'.testCases.map TestCase.createdAt = [d1, d2] ∧
        s'.testCases.map TestCase.updatedAt = [d1, d2] := by
  rw [promote_singleton _ _ rfl, promote_singleton _ _ rfl]
  set tc1 : TestCase :=
    { id := g1.id, title := ti1, description := de1, code := g1.code,
      testType := "unit", priority := "medium", status := "draft",
      filePath := "", functionName := none, createdAt := d1, updatedAt := d1 } with htc1
  set tc2 : TestCase :=
    { id := g2.id, title := ti2, description := de2, code := g2.code,
      testType := "unit", priority := "medium", status := "draft",
      filePath := "", functionName := none, createdAt := d2, updatedAt := d2 } with htc2
  set S : TestSuite :=
    { createTestSuite t0 d0 name desc fw lang tags with
        testCases := [tc1, tc2], updatedAt := d2 } with hS
  have hform :
      loadTestSuites (saveTestSuites [S]) dLoad = [hydrateTestSuite (serializeTestSuite S)] := by
    simp [loadTestSuites, saveTestSuites]
  have hround : hydrateTestSuite (serializeTestSuite S) = S := by
    apply hydrate_serialize_suite
    · exact h0
    · exact h2
    · intro c hc
      rw [hS] at hc
      simp only [List.mem_cons, List.not_mem_nil, or_false] at hc
      rcases hc with rfl | rfl
      · exact ⟨h1, h1⟩
      · exact ⟨h2, h2⟩
  refine ⟨S, ?_, ?_⟩
  · show loadTestSuites (saveTestSuites [S]) dLoad = [S]
    rw [hform, hround]
  · refine ⟨rfl, rfl, sameDay_refl d0, sameDay_refl d2, rfl, rfl⟩

/-- Witness for C8 at concrete dates, suite fields and generated tests. -/
theorem claim8_witness :
    ∃ s',
      loadTestSuites
          (saveTestSuites
            (promote
              (promote [createTestSuite 1000 exD0 "N" "D" "jest" "typescript" ["t"]]
                (createTestSuite 1000 exD0 "N" "D" "jest" "typescript" ["t"]).id
                (exGenerated "a") "T1" "DD1" exD1)
              (createTestSuite 1000 exD0 "N" "D" "jest" "typescript" ["t"]).id
              (exGenerated "b") "T2" "DD2" exD2))
          exD0 = [s'] ∧
        s'.name = "N" ∧ s'.testCases.length = 2 ∧
        sameDay s'.createdAt exD0 ∧ sameDay s'.updatedAt exD2 ∧
        s'.testCases.map TestCase.createdAt = [exD1, exD2] ∧
        s'.testCases.map TestCase.updatedAt = [exD1, exD2] :=
  claim8 "N" "D" "jest" "typescript" ["t"] 1000 exD0 exD1 exD2 exD0
    (exGenerated "a") (exGenerated "b") "T1" "DD1" "T2" "DD2"
    (by decide) (by decide) (by decide)

/-! ## Claim C9: the main-to-master branch retry -/

theorem createBranch_ne_main (env : BranchEnv) (newBranch fromBranch : String)
    (h : fromBranch ≠ "main") :
    createBranch env newBranch fromBranch = createBranchOnce env newBranch fromBranch := by
  unfold createBranch
  split
  · next r heq => rw [heq]
  · next e heq => rw [dif_neg h, heq]

theorem createBranch_main_retry (env : BranchEnv) (newBranch : String) (e : String)
    (h : createBranchOnce env newBranch "main" = Except.error e) :
    createBranch env newBranch "main" = createBranchOnce env newBranch "master" := by
  have hstep : createBranch env newBranch "main" = createBranch env newBranch "master" := by
    conv_lhs => rw [createBranch.eq_def]
    rw [h]
    simp
  rw [hstep]
  exact createBranch_ne_main env newBranch "master" (by decide)

/-- C9: when reading the conventional default branch main fails (in particular
because it does not exist), createBranch transparently performs exactly one
further attempt, the whole un-retried operation against master, and surfaces
that attempt's outcome; for any other source branch the single attempt's
failure is surfaced directly with no retry. -/
theorem claim9 (env : BranchEnv) (newBranch : String) :
    (∀ e, env.getBranchSha "main" = Except.error e →
      createBranch env newBranch "main" = createBranchOnce env newBranch "master") ∧
      ∀ fromBranch, fromBranch ≠ "main" →
        createBranch env newBranch fromBranch = createBranchOnce env newBranch fromBranch := by
  constructor
  · intro e he
    apply createBranch_main_retry env newBranch e
    unfold createBranchOnce
    rw [he]
  · intro fromBranch h
    exact createBranch_ne_main env newBranch fromBranch h

/-- Witness for C9: an environment whose main lookup fails with a not-found
error retries against master, and a failure on a non-main source is surfaced
as the single attempt's result. -/
theorem claim9_witness :
    createBranch exBranchEnv "feature" "main" = createBranchOnce exBranchEnv "feature" "master" ∧
      createBranch exBranchEnv "feature" "dev" = createBranchOnce exBranchEnv "feature" "dev" :=
  ⟨(claim9 exBranchEnv "feature").1 "404 not found" rfl,
   (claim9 exBranchEnv "feature").2 "dev" (by decide)⟩

/-! ## Claim C10: the repository listing filter is the identity -/

/-- C10: the post-fetch visibility filter of getRepositories keeps every
repository, private ones included, in the order received: it equals the
identity the spec reading ascribes to the listing. -/
theorem claim10 (repos : List GitHubRepo) :
    getRepositoriesFilter repos = listRepositoriesSpec repos := by
  unfold getRepositoriesFilter listRepositoriesSpec
  simp
